import Mathlib

/-!
Verification of the sysmon terminal system monitor (src/sysmon.py).

Shallow embedding conventions:
* Python `int` values are `Int` (arbitrary precision), float results are `ℚ`
  (all arithmetic the monitor performs on floats is exact division and
  subtraction of integer-derived values).
* Fallible operations (Python exceptions: `IndexError`, `ValueError`,
  `ZeroDivisionError`) are modelled with `Option`: `none` means the Python
  code raises.
* `str.split()` (whitespace split dropping empty fields), `str.split(':', 1)`,
  `int(...)` and slicing `s[:k]` are modelled by the `py*` helpers below.
* File contents are passed in as the list of their lines.
-/

namespace Sysmon

/-- Split a character list at every character satisfying `p`, keeping empty
chunks (the helper under Python's `str.split`). -/
def splitChunks (p : Char → Bool) (s : List Char) : List (List Char) :=
  s.foldr
    (fun c acc =>
      if p c then [] :: acc
      else
        match acc with
        | [] => [[c]]
        | w :: ws => (c :: w) :: ws)
    [[]]

/-- Python `s.split()`: split on whitespace, dropping empty fields. -/
def pySplitWs (s : List Char) : List (List Char) :=
  (splitChunks Char.isWhitespace s).filter (fun t => t ≠ [])

/-- Python `s.strip()`: drop leading and trailing whitespace. -/
def pyStrip (s : List Char) : List Char :=
  ((s.dropWhile Char.isWhitespace).reverse.dropWhile Char.isWhitespace).reverse

/-- The numeric value of a non-empty all-digit character list, `none`
otherwise. -/
def digitsVal (ds : List Char) : Option Nat :=
  if ds ≠ [] ∧ ds.all Char.isDigit then
    some (ds.foldl (fun n c => 10 * n + (c.toNat - ('0').toNat)) 0)
  else none

/-- Python `int(s)`: strip surrounding whitespace, accept an optional sign
followed by decimal digits, and raise `ValueError` (`none`) on any other
(non-numeric) field. -/
def pyInt (s : List Char) : Option Int :=
  match pyStrip s with
  | '-' :: ds => (digitsVal ds).map (fun n => -(n : Int))
  | '+' :: ds => (digitsVal ds).map (fun n => (n : Int))
  | ds => (digitsVal ds).map (fun n => (n : Int))

/-- Python `iface, data = line.split(':', 1)`: split at the first colon
only; the unpacking raises `ValueError` (`none`) when the line holds no
colon. -/
def pySplitColonOnce (s : List Char) : Option (List Char × List Char) :=
  if s.contains ':' then
    some (s.takeWhile (fun c => c != ':'), (s.dropWhile (fun c => c != ':')).drop 1)
  else none

/-- Python slice `l[:k]` on a list of characters, `k` a possibly negative
index: a non-negative `k` keeps the first `k` characters (clamped), a
negative `k` drops the last `-k` characters (clamped at the empty list). -/
def pySliceTo (l : List Char) (k : Int) : List Char :=
  if 0 ≤ k then l.take k.toNat else l.take (l.length - (-k).toNat)

/-- `read_cpu_times`, field level: `fields` is `f.readline().split()` of
/proc/stat. `vals = list(map(int, fields[1:8]))`, `idle = vals[3]`,
`total = sum(vals)`; a missing or non-numeric field raises (`none`). -/
def read_cpu_times_fields (fields : List (List Char)) : Option (Int × Int) :=
  (((fields.drop 1).take 7).mapM pyInt).bind (fun vals =>
    (vals[3]?).map (fun idle => (idle, vals.sum)))

/-- `read_cpu_times` on the first line of /proc/stat. -/
def read_cpu_times (line : String) : Option (Int × Int) :=
  read_cpu_times_fields (pySplitWs line.toList)

/-- `read_mem_percent` on the first two lines of /proc/meminfo:
`total = int(total_line.split()[1])`, `free = int(free_line.split()[1])`,
result `used * 100.0 / total`.  Python raises `ZeroDivisionError` when
`total == 0` (there is no guard in the source), modelled as `none`. -/
def read_mem_percent (totalLine freeLine : String) : Option ℚ :=
  match ((pySplitWs totalLine.toList)[1]?).bind pyInt,
        ((pySplitWs freeLine.toList)[1]?).bind pyInt with
  | some total, some free =>
    if total = 0 then none
    else some (((total - free : Int) : ℚ) * 100 / (total : ℚ))
  | _, _ => none

/-- `read_disk_usage_percent`, given the three `os.statvfs` fields it uses:
`used = (f_blocks - f_bfree) * f_frsize`, `total = f_blocks * f_frsize`,
result `used * 100.0 / total`; Python raises `ZeroDivisionError` when
`total == 0` (no guard in the source), modelled as `none`. -/
def read_disk_usage_percent (f_blocks f_bfree f_frsize : Int) : Option ℚ :=
  let used := (f_blocks - f_bfree) * f_frsize
  let total := f_blocks * f_frsize
  if total = 0 then none
  else some ((used : ℚ) * 100 / (total : ℚ))

/-- The device-name allow-list of `read_disk_io`:
`name.startswith(('sd', 'nvme', 'hd'))`. -/
def diskAllowList : List (List Char) := ["sd".toList, "nvme".toList, "hd".toList]

/-- One line of /proc/diskstats inside the `read_disk_io` loop: the pair of
(read-sector, write-sector) contributions of the line.  `parts[2]` raising on
a short line, or `int(parts[5])` / `int(parts[9])` raising on an allow-listed
line, is `none`; a line whose device name is not allow-listed contributes
`(0, 0)`. -/
def diskLineDelta (line : String) : Option (Int × Int) :=
  let parts := pySplitWs line.toList
  match parts[2]? with
  | none => none
  | some name =>
    if diskAllowList.any (fun p => p.isPrefixOf name) then
      match parts[5]?, parts[9]? with
      | some r, some w =>
        match pyInt r, pyInt w with
        | some rv, some wv => some (rv, wv)
        | _, _ => none
      | _, _ => none
    else some (0, 0)

/-- The accumulation step shared by the `read_disk_io` and `read_net_dev`
loops: add the line's contribution to the running pair, propagating a raised
exception (`none`). -/
def accStep (delta : String → Option (Int × Int)) (acc : Int × Int)
    (line : String) : Option (Int × Int) :=
  (delta line).map (fun d => (acc.1 + d.1, acc.2 + d.2))

/-- `read_disk_io` over the lines of /proc/diskstats: sum the sector counts
of allow-listed devices and convert to MB via
`sectors * 512 / 1024**2`. -/
def read_disk_io (lines : List String) : Option (ℚ × ℚ) :=
  match lines.foldlM (accStep diskLineDelta) (0, 0) with
  | none => none
  | some (r, w) =>
    some ((r : ℚ) * 512 / 1024 ^ 2, (w : ℚ) * 512 / 1024 ^ 2)

/-- One line of /proc/net/dev inside the `read_net_dev` loop: the pair of
(rx-byte, tx-byte) contributions.  A line with no colon, a non-numeric
field, or fewer than 9 numeric fields raises (`none`); the loopback
interface `lo` is skipped (`continue`), contributing `(0, 0)` before its
data fields are ever parsed. -/
def netLineDelta (line : String) : Option (Int × Int) :=
  (pySplitColonOnce line.toList).bind (fun p =>
    if pyStrip p.1 = ['l', 'o'] then some (0, 0)
    else
      ((pySplitWs p.2).mapM pyInt).bind (fun vals =>
        (vals[0]?).bind (fun r => (vals[8]?).map (fun t => (r, t)))))

/-- `read_net_dev` over the lines of /proc/net/dev: drop the two header
lines, sum rx/tx byte counters of non-loopback interfaces, and return KB
via `/ 1024`. -/
def read_net_dev (lines : List String) : Option (ℚ × ℚ) :=
  match (lines.drop 2).foldlM (accStep netLineDelta) (0, 0) with
  | none => none
  | some (r, t) => some ((r : ℚ) / 1024, (t : ℚ) / 1024)

/-- The `Prev` namedtuple: the previous snapshot held by the main loop.
CPU counters are tick counts (`Int`); the disk and net fields store the
already-converted MB/KB values returned by `read_disk_io`/`read_net_dev`
(`ℚ`), exactly as in the source. -/
structure Prev where
  cpu_idle : Int
  cpu_total : Int
  disk_read : ℚ
  disk_write : ℚ
  net_rx : ℚ
  net_tx : ℚ

/-- The CPU-utilization computation of the main loop:
`cpu_pct = (1.0 - d_idle / d_total) * 100.0 if d_total else 0.0`.
The Python guard `if d_total` means `d_total ≠ 0`, so the division is only
ever evaluated with a nonzero divisor. -/
def cpu_pct (p : Prev) (idle1 total1 : Int) : ℚ :=
  let dIdle := idle1 - p.cpu_idle
  let dTotal := total1 - p.cpu_total
  if dTotal ≠ 0 then (1 - (dIdle : ℚ) / (dTotal : ℚ)) * 100 else 0

/-- The derived rates one iteration of the main loop computes from the
previous snapshot and the freshly read values. -/
structure TickRates where
  cpuPct : ℚ
  rdRate : ℚ
  wrRate : ℚ
  rxRate : ℚ
  txRate : ℚ

/-- One iteration of the main loop's rate computations: CPU percentage and
the four raw differences (no clamping appears in the source). -/
def tickRates (p : Prev) (idle1 total1 : Int) (rd1 wr1 rx1 tx1 : ℚ) :
    TickRates :=
  { cpuPct := cpu_pct p idle1 total1
    rdRate := rd1 - p.disk_read
    wrRate := wr1 - p.disk_write
    rxRate := rx1 - p.net_rx
    txRate := tx1 - p.net_tx }

/-- The three-character ellipsis the renderer appends. -/
def ellipsis : List Char := ['.', '.', '.']

/-- The terminal-width truncation of the main loop, over the line's
characters: `if len(line) > cols: line = line[:cols-3] + '...'`.
Note `cols - 3` is computed in `Int` (Python), so a width below 3 yields a
negative slice index. -/
def truncateLine (line : List Char) (cols : Nat) : List Char :=
  if cols < line.length then pySliceTo line ((cols : Int) - 3) ++ ellipsis
  else line

/-! ### Helper lemmas about the accumulation loops -/

/-- If some line of the input raises, the whole accumulation loop raises,
whatever the accumulator: the per-line exception propagates out of the read. -/
theorem foldlM_accStep_none (delta : String → Option (Int × Int))
    (l : List String) (x : String) (hx : x ∈ l) (h : delta x = none) :
    ∀ acc : Int × Int, l.foldlM (accStep delta) acc = none := by
  induction l with
  | nil => cases hx
  | cons y t ih =>
    intro acc
    rw [List.foldlM_cons]
    rcases List.mem_cons.mp hx with rfl | hxt
    · simp [accStep, h]
    · cases hy : delta y with
      | none => simp [accStep, hy]
      | some d =>
        simp only [accStep, hy, Option.map_some']
        exact ih hxt _

/-- If every line of the input succeeds, the accumulation loop returns the
accumulator plus the componentwise sum of the per-line contributions. -/
theorem foldlM_accStep_some (delta : String → Option (Int × Int))
    (l : List String) (ds : List (Int × Int)) (h : l.mapM delta = some ds) :
    ∀ acc : Int × Int,
      l.foldlM (accStep delta) acc =
        some (acc.1 + (ds.map Prod.fst).sum, acc.2 + (ds.map Prod.snd).sum) := by
  induction l generalizing ds with
  | nil =>
    intro acc
    simp only [List.mapM_nil, pure, Option.some.injEq] at h
    subst h
    simp
  | cons y t ih =>
    intro acc
    rw [List.mapM_cons] at h
    cases hy : delta y with
    | none => simp [hy] at h
    | some d =>
      rw [hy] at h
      cases ht : t.mapM delta with
      | none =>
        rw [ht] at h
        simp [Option.bind] at h
      | some dt =>
        rw [ht] at h
        simp only [Option.bind_eq_bind, Option.some_bind, Option.pure_def,
          Option.some.injEq] at h
        subst h
        rw [List.foldlM_cons]
        simp only [accStep, hy, Option.map_some', Option.bind_eq_bind,
          Option.some_bind]
        rw [ih dt ht]
        simp only [List.map_cons, List.sum_cons, Option.some.injEq]
        rw [Prod.mk.injEq]
        exact ⟨by ring, by ring⟩

/-- `mapM` over `Option` preserves length: if every element parses, the
list of parsed values is as long as the input. -/
theorem mapM_some_length {α β : Type} (f : α → Option β) (l : List α)
    (bs : List β) (h : l.mapM f = some bs) : l.length = bs.length := by
  induction l generalizing bs with
  | nil =>
    rw [List.mapM_nil] at h
    simp only [Option.pure_def, Option.some.injEq] at h
    subst h
    rfl
  | cons a t ih =>
    rw [List.mapM_cons] at h
    cases ha : f a with
    | none => rw [ha] at h; simp [Option.bind] at h
    | some b =>
      rw [ha] at h
      cases ht : t.mapM f with
      | none => rw [ht] at h; simp [Option.bind] at h
      | some bt =>
        rw [ht] at h
        simp only [Option.bind_eq_bind, Option.some_bind, Option.pure_def,
          Option.some.injEq] at h
        subst h
        simp [ih bt ht]

/-! ### C1 -/

/-- C1: for every pair of consecutive CPU snapshots, a zero total-ticks
delta yields a CPU percentage of exactly 0; the `if d_total` guard in the
source means the division `d_idle / d_total` is only evaluated when
`d_total ≠ 0`, never with a zero divisor. -/
theorem cpu_pct_zero_delta (p : Prev) (idle1 total1 : Int)
    (h : total1 - p.cpu_total = 0) : cpu_pct p idle1 total1 = 0 := by
  simp [cpu_pct, h]

/-- Witness for C1 at a concrete snapshot pair with equal totals. -/
theorem cpu_pct_zero_delta_witness :
    (5000 : Int) - (Prev.mk 1000 5000 0 0 0 0).cpu_total = 0 ∧
      cpu_pct (Prev.mk 1000 5000 0 0 0 0) 1200 5000 = 0 :=
  ⟨by decide, cpu_pct_zero_delta (Prev.mk 1000 5000 0 0 0 0) 1200 5000 (by decide)⟩

/-! ### C2 -/

/-- C2 counterexample: with a reported total of zero the gauges FAIL rather
than returning 0%: `read_mem_percent` on meminfo lines reporting
`MemTotal: 0` raises `ZeroDivisionError` (`none`), and
`read_disk_usage_percent` with zero blocks does the same; neither returns
`some 0`. -/
theorem zero_total_gauges_fail_cex :
    read_mem_percent "MemTotal: 0 kB" "MemFree: 0 kB" = none ∧
      read_disk_usage_percent 0 0 4096 = none ∧
      (none : Option ℚ) ≠ some 0 := by
  refine ⟨by decide, by decide, by decide⟩

/-- C2 amended: the divisions are NOT guarded.  Whenever the parsed memory
total is 0, `read_mem_percent` fails (raises `ZeroDivisionError`, `none`)
even on well-formed input, and whenever `f_blocks * f_frsize = 0`,
`read_disk_usage_percent` fails likewise; neither operation returns 0%. -/
theorem zero_total_gauges_fail (totalLine freeLine : String) (free : Int)
    (ht : ((pySplitWs totalLine.toList)[1]?).bind pyInt = some 0)
    (hf : ((pySplitWs freeLine.toList)[1]?).bind pyInt = some free)
    (f_blocks f_bfree f_frsize : Int) (hd : f_blocks * f_frsize = 0) :
    read_mem_percent totalLine freeLine = none ∧
      read_disk_usage_percent f_blocks f_bfree f_frsize = none := by
  constructor
  · unfold read_mem_percent
    rw [ht, hf]
    simp
  · unfold read_disk_usage_percent
    simp [hd]

/-- Witness for C2 (amended) at concrete meminfo lines and statvfs values. -/
theorem zero_total_gauges_fail_witness :
    ((pySplitWs ("MemTotal: 0 kB").toList)[1]?).bind pyInt = some 0 ∧
      ((pySplitWs ("MemFree: 5 kB").toList)[1]?).bind pyInt = some 5 ∧
      (0 : Int) * 4096 = 0 ∧
      (read_mem_percent "MemTotal: 0 kB" "MemFree: 5 kB" = none ∧
        read_disk_usage_percent 0 3 4096 = none) :=
  ⟨by decide, by decide, by decide,
    zero_total_gauges_fail "MemTotal: 0 kB" "MemFree: 5 kB" 5 (by decide)
      (by decide) 0 3 4096 (by decide)⟩

/-! ### C3 -/

/-- C3: over a pair of consecutive snapshots in which every counter is
non-decreasing and the idle ticks grow no faster than the total ticks,
every derived rate of one loop iteration — the CPU percentage, the disk
read/write rates and the network rx/tx rates — is non-negative. -/
theorem rates_nonneg (p : Prev) (idle1 total1 : Int) (rd1 wr1 rx1 tx1 : ℚ)
    (_hIdle : p.cpu_idle ≤ idle1) (hTotal : p.cpu_total ≤ total1)
    (hSlope : idle1 - p.cpu_idle ≤ total1 - p.cpu_total)
    (hRd : p.disk_read ≤ rd1) (hWr : p.disk_write ≤ wr1)
    (hRx : p.net_rx ≤ rx1) (hTx : p.net_tx ≤ tx1) :
    0 ≤ (tickRates p idle1 total1 rd1 wr1 rx1 tx1).cpuPct ∧
      0 ≤ (tickRates p idle1 total1 rd1 wr1 rx1 tx1).rdRate ∧
      0 ≤ (tickRates p idle1 total1 rd1 wr1 rx1 tx1).wrRate ∧
      0 ≤ (tickRates p idle1 total1 rd1 wr1 rx1 tx1).rxRate ∧
      0 ≤ (tickRates p idle1 total1 rd1 wr1 rx1 tx1).txRate := by
  refine ⟨?_, ?_, ?_, ?_, ?_⟩
  · show 0 ≤ cpu_pct p idle1 total1
    by_cases hdT : total1 - p.cpu_total = 0
    · simp [cpu_pct, hdT]
    · have hpos : (0 : Int) < total1 - p.cpu_total :=
        lt_of_le_of_ne (by omega) (Ne.symm hdT)
      have hposQ : (0 : ℚ) < ((total1 - p.cpu_total : Int) : ℚ) := by
        exact_mod_cast hpos
      have hle : ((idle1 - p.cpu_idle : Int) : ℚ) ≤
          ((total1 - p.cpu_total : Int) : ℚ) := by exact_mod_cast hSlope
      have hdiv : ((idle1 - p.cpu_idle : Int) : ℚ) /
          ((total1 - p.cpu_total : Int) : ℚ) ≤ 1 :=
        (div_le_one hposQ).mpr hle
      simp only [cpu_pct, hdT, ne_eq, not_false_eq_true, if_true]
      push_cast at hdiv ⊢
      nlinarith
  · show 0 ≤ rd1 - p.disk_read
    linarith
  · show 0 ≤ wr1 - p.disk_write
    linarith
  · show 0 ≤ rx1 - p.net_rx
    linarith
  · show 0 ≤ tx1 - p.net_tx
    linarith

/-- Witness for C3 at a concrete monotone snapshot pair. -/
theorem rates_nonneg_witness :
    (Prev.mk 1000 5000 1 2 3 4).cpu_idle ≤ 1200 ∧
      (Prev.mk 1000 5000 1 2 3 4).cpu_total ≤ 5800 ∧
      (1200 : Int) - 1000 ≤ 5800 - 5000 ∧
      (0 ≤ (tickRates (Prev.mk 1000 5000 1 2 3 4) 1200 5800 2 3 4 5).cpuPct ∧
        0 ≤ (tickRates (Prev.mk 1000 5000 1 2 3 4) 1200 5800 2 3 4 5).rdRate ∧
        0 ≤ (tickRates (Prev.mk 1000 5000 1 2 3 4) 1200 5800 2 3 4 5).wrRate ∧
        0 ≤ (tickRates (Prev.mk 1000 5000 1 2 3 4) 1200 5800 2 3 4 5).rxRate ∧
        0 ≤ (tickRates (Prev.mk 1000 5000 1 2 3 4) 1200 5800 2 3 4 5).txRate) :=
  ⟨by decide, by decide, by decide,
    rates_nonneg (Prev.mk 1000 5000 1 2 3 4) 1200 5800 2 3 4 5 (by decide)
      (by decide) (by decide) (by norm_num) (by norm_num) (by norm_num)
      (by norm_num)⟩

/-! ### C4 -/

/-- C4 counterexample: when every counter rolls backward (current value 1
below previous value 2), the loop reports each rate as the raw difference
-1; nothing clamps the negative delta to zero. -/
theorem backward_counter_not_clamped_cex :
    (1 : ℚ) < 2 ∧
      (tickRates (Prev.mk 0 0 2 2 2 2) 0 0 1 1 1 1).rdRate = -1 ∧
      (tickRates (Prev.mk 0 0 2 2 2 2) 0 0 1 1 1 1).wrRate = -1 ∧
      (tickRates (Prev.mk 0 0 2 2 2 2) 0 0 1 1 1 1).rxRate = -1 ∧
      (tickRates (Prev.mk 0 0 2 2 2 2) 0 0 1 1 1 1).txRate = -1 ∧
      (-1 : ℚ) ≠ 0 := by
  refine ⟨by norm_num, ?_, ?_, ?_, ?_, by norm_num⟩ <;>
    simp [tickRates] <;> norm_num

/-- C4 amended: negative deltas are NOT clamped.  When a disk or network
counter rolls backward between two consecutive snapshots, the loop reports
the raw (strictly negative) difference as the rate. -/
theorem backward_counter_not_clamped (p : Prev) (idle1 total1 : Int)
    (rd1 wr1 rx1 tx1 : ℚ) (hRd : rd1 < p.disk_read)
    (hWr : wr1 < p.disk_write) (hRx : rx1 < p.net_rx)
    (hTx : tx1 < p.net_tx) :
    (tickRates p idle1 total1 rd1 wr1 rx1 tx1).rdRate < 0 ∧
      (tickRates p idle1 total1 rd1 wr1 rx1 tx1).wrRate < 0 ∧
      (tickRates p idle1 total1 rd1 wr1 rx1 tx1).rxRate < 0 ∧
      (tickRates p idle1 total1 rd1 wr1 rx1 tx1).txRate < 0 := by
  refine ⟨?_, ?_, ?_, ?_⟩ <;> simp only [tickRates] <;> linarith

/-- Witness for C4 (amended) at a concrete rolled-back snapshot pair. -/
theorem backward_counter_not_clamped_witness :
    (1 : ℚ) < (Prev.mk 7 9 2 2 2 2).disk_read ∧
      ((tickRates (Prev.mk 7 9 2 2 2 2) 8 10 1 1 1 1).rdRate < 0 ∧
        (tickRates (Prev.mk 7 9 2 2 2 2) 8 10 1 1 1 1).wrRate < 0 ∧
        (tickRates (Prev.mk 7 9 2 2 2 2) 8 10 1 1 1 1).rxRate < 0 ∧
        (tickRates (Prev.mk 7 9 2 2 2 2) 8 10 1 1 1 1).txRate < 0) :=
  ⟨by norm_num, backward_counter_not_clamped (Prev.mk 7 9 2 2 2 2) 8 10 1 1 1 1
    (by norm_num) (by norm_num) (by norm_num) (by norm_num)⟩

/-! ### C7 -/

/-- C7: for prev `(idle=1000, total=5000)` and curr `(idle=1200, total=5800)`
the main loop's CPU computation yields exactly 75 percent. -/
theorem cpu_pct_example :
    cpu_pct (Prev.mk 1000 5000 0 0 0 0) 1200 5800 = 75 := by
  norm_num [cpu_pct]

/-! ### C5 -/

/-- C5 counterexample: on diskstats input with read-sector counts 100 and
2000 on two `sd*` lines (and an ignored `loop0` line), `read_disk_io`
returns `2100 * 512 / 1024 ^ 2` megabytes — the value `525 / 512`, which is
NOT the byte count `2100 * 512`. -/
theorem disk_io_megabytes_cex :
    read_disk_io
        ["8 0 sda 10 0 100 0 0 0 0 0 0 0",
         "8 16 sdb 20 0 2000 0 0 0 0 0 0 0",
         "7 0 loop0 5 0 999 0 0 0 888 0 0 0"] =
      some (525 / 512, 0) ∧ (525 / 512 : ℚ) ≠ 2100 * 512 := by
  have hfold :
      ["8 0 sda 10 0 100 0 0 0 0 0 0 0",
        "8 16 sdb 20 0 2000 0 0 0 0 0 0 0",
        "7 0 loop0 5 0 999 0 0 0 888 0 0 0"].foldlM
        (accStep diskLineDelta) ((0 : Int), (0 : Int)) = some (2100, 0) := by
    decide
  constructor
  · unfold read_disk_io
    rw [hfold]
    norm_num
  · norm_num

/-- C5 amended: `read_disk_io` accumulates sectors over exactly the
allow-listed device-name prefixes (the `loop0` line changes nothing) and
converts them to MEGABYTES, `sectors * 512 / 1024 ^ 2`; on the example
input the read value is `2100 * 512 / 1024 ^ 2` MB (i.e. `2100 * 512`
bytes divided by `1024 ^ 2`). -/
theorem disk_io_megabytes :
    read_disk_io
        ["8 0 sda 10 0 100 0 0 0 0 0 0 0",
         "8 16 sdb 20 0 2000 0 0 0 0 0 0 0",
         "7 0 loop0 5 0 999 0 0 0 888 0 0 0"] =
      read_disk_io
        ["8 0 sda 10 0 100 0 0 0 0 0 0 0",
         "8 16 sdb 20 0 2000 0 0 0 0 0 0 0"] ∧
      read_disk_io
        ["8 0 sda 10 0 100 0 0 0 0 0 0 0",
         "8 16 sdb 20 0 2000 0 0 0 0 0 0 0"] =
        some ((2100 * 512 : ℚ) / 1024 ^ 2, (0 * 512 : ℚ) / 1024 ^ 2) := by
  have hfold3 :
      ["8 0 sda 10 0 100 0 0 0 0 0 0 0",
        "8 16 sdb 20 0 2000 0 0 0 0 0 0 0",
        "7 0 loop0 5 0 999 0 0 0 888 0 0 0"].foldlM
        (accStep diskLineDelta) ((0 : Int), (0 : Int)) = some (2100, 0) := by
    decide
  have hfold2 :
      ["8 0 sda 10 0 100 0 0 0 0 0 0 0",
        "8 16 sdb 20 0 2000 0 0 0 0 0 0 0"].foldlM
        (accStep diskLineDelta) ((0 : Int), (0 : Int)) = some (2100, 0) := by
    decide
  constructor
  · unfold read_disk_io
    rw [hfold3, hfold2]
  · unfold read_disk_io
    rw [hfold2]
    norm_num

/-! ### C6 -/

/-- C6 counterexample: a malformed line ABORTS the read instead of being
skipped: diskstats input holding one well-formed `sda` line and one line
with too few fields makes `read_disk_io` raise (`none`), and a /proc/net/dev
line with no colon makes `read_net_dev` raise (`none`); neither returns the
accumulation over the remaining well-formed lines. -/
theorem malformed_line_aborts_cex :
    read_disk_io ["8 0 sda 4 0 100 0 0 0 7 0 0 0", "8 0"] = none ∧
      read_net_dev ["header1", "header2", "eth0 no colon here"] = none ∧
      (none : Option (ℚ × ℚ)) ≠
        some ((100 * 512 : ℚ) / 1024 ^ 2, (7 * 512 : ℚ) / 1024 ^ 2) := by
  exact ⟨by decide, by decide, by decide⟩

/-- C6 amended: a malformed line (too few whitespace-separated fields, a
missing colon, or a non-numeric parsed field) is NOT skipped: its exception
propagates, so the whole `read_disk_io` / `read_net_dev` call fails and the
tick is aborted, whatever the other lines hold. -/
theorem malformed_line_aborts :
    (∀ (lines : List String) (line : String), line ∈ lines →
        diskLineDelta line = none → read_disk_io lines = none) ∧
      (∀ (header1 header2 : String) (rest : List String) (line : String),
        line ∈ rest → netLineDelta line = none →
        read_net_dev (header1 :: header2 :: rest) = none) := by
  constructor
  · intro lines line hmem hnone
    unfold read_disk_io
    rw [foldlM_accStep_none diskLineDelta lines line hmem hnone]
  · intro header1 header2 rest line hmem hnone
    unfold read_net_dev
    rw [show (header1 :: header2 :: rest).drop 2 = rest from rfl,
      foldlM_accStep_none netLineDelta rest line hmem hnone]

/-- Witness for C6 (amended) at concrete malformed inputs. -/
theorem malformed_line_aborts_witness :
    ("8 0" ∈ ["8 0 sda 4 0 100 0 0 0 7 0 0 0", "8 0"] ∧
        diskLineDelta "8 0" = none ∧
        read_disk_io ["8 0 sda 4 0 100 0 0 0 7 0 0 0", "8 0"] = none) ∧
      ("eth0 x" ∈ ["eth0 x"] ∧ netLineDelta "eth0 x" = none ∧
        read_net_dev ["header1", "header2", "eth0 x"] = none) :=
  ⟨⟨by decide, by decide,
      malformed_line_aborts.1 ["8 0 sda 4 0 100 0 0 0 7 0 0 0", "8 0"] "8 0"
        (by decide) (by decide)⟩,
    ⟨by decide, by decide,
      malformed_line_aborts.2 "header1" "header2" ["eth0 x"] "eth0 x"
        (by decide) (by decide)⟩⟩

/-! ### C8 -/

/-- C8 counterexample: with a reported terminal width of 2 columns, a
6-character line is "truncated" to the 8-character string `abcde...`
(Python's `line[:cols-3]` with a negative index keeps all but the last
character), not to exactly 2 characters. -/
theorem truncate_narrow_cex :
    2 < ("abcdef").toList.length ∧
      truncateLine ("abcdef").toList 2 = ("abcde...").toList ∧
      (truncateLine ("abcdef").toList 2).length ≠ 2 := by
  exact ⟨by decide, by decide, by decide⟩

/-- C8 amended: for every terminal width `cols ≥ 3`, a line longer than
`cols` is truncated to exactly `cols` characters ending in the 3-character
ellipsis `...`, and a line of length at most `cols` is left unchanged (for
widths below 3 the truncated line is longer than the terminal instead). -/
theorem truncate_spec :
    (∀ (line : List Char) (cols : Nat), 3 ≤ cols → cols < line.length →
        (truncateLine line cols).length = cols ∧
          ellipsis <:+ truncateLine line cols) ∧
      (∀ (line : List Char) (cols : Nat), line.length ≤ cols →
        truncateLine line cols = line) := by
  constructor
  · intro line cols h3 hlen
    unfold truncateLine
    rw [if_pos hlen]
    refine ⟨?_, List.suffix_append _ _⟩
    rw [List.length_append]
    unfold pySliceTo
    rw [if_pos (by omega)]
    rw [show ((cols : Int) - 3).toNat = cols - 3 from by omega]
    rw [List.length_take]
    rw [show ellipsis.length = 3 from rfl]
    omega
  · intro line cols hle
    unfold truncateLine
    rw [if_neg (by omega)]

/-- Witness for C8 (amended) at a concrete 12-character line, width 10,
and a concrete short line, width 5. -/
theorem truncate_spec_witness :
    (3 ≤ 10 ∧ 10 < ("abcdefghijkl").toList.length ∧
        ((truncateLine ("abcdefghijkl").toList 10).length = 10 ∧
          ellipsis <:+ truncateLine ("abcdefghijkl").toList 10)) ∧
      (("abc").toList.length ≤ 5 ∧ truncateLine ("abc").toList 5 = ("abc").toList) :=
  ⟨⟨by decide, by decide, truncate_spec.1 ("abcdefghijkl").toList 10 (by decide) (by decide)⟩,
    ⟨by decide, truncate_spec.2 ("abc").toList 5 (by decide)⟩⟩

/-! ### C9 -/

/-- C9: `read_net_dev` drops the first two header lines whatever they hold;
a line whose interface name strips to `lo` is excluded entirely,
contributing nothing to either sum; every other well-formed line
contributes its first numeric field to rx and its ninth numeric field to
tx; and when every line processes, the result is the pair of sums (in KB,
divided by 1024). -/
theorem read_net_dev_spec :
    (∀ (header1 header2 : String) (rest : List String) (ds : List (Int × Int)),
        rest.mapM netLineDelta = some ds →
        read_net_dev (header1 :: header2 :: rest) =
          some ((((ds.map Prod.fst).sum : Int) : ℚ) / 1024,
            (((ds.map Prod.snd).sum : Int) : ℚ) / 1024)) ∧
      (∀ (line : String) (iface data : List Char),
        pySplitColonOnce line.toList = some (iface, data) →
        pyStrip iface = ['l', 'o'] →
        netLineDelta line = some (0, 0)) ∧
      (∀ (line : String) (iface data : List Char) (vals : List Int) (v0 v8 : Int),
        pySplitColonOnce line.toList = some (iface, data) →
        pyStrip iface ≠ ['l', 'o'] →
        (pySplitWs data).mapM pyInt = some vals →
        vals[0]? = some v0 → vals[8]? = some v8 →
        netLineDelta line = some (v0, v8)) := by
  refine ⟨?_, ?_, ?_⟩
  · intro header1 header2 rest ds hmap
    unfold read_net_dev
    rw [show (header1 :: header2 :: rest).drop 2 = rest from rfl,
      foldlM_accStep_some netLineDelta rest ds hmap]
    simp
  · intro line iface data hsplit hlo
    have hsplit2 : pySplitColonOnce line.data = some (iface, data) := hsplit
    simp [netLineDelta, hsplit, hsplit2, hlo]
  · intro line iface data vals v0 v8 hsplit hlo hvals hv0 hv8
    have hsplit2 : pySplitColonOnce line.data = some (iface, data) := hsplit
    have hvals2 : List.mapM.loop pyInt (pySplitWs data) [] = some vals := hvals
    simp [netLineDelta, hsplit, hsplit2, hlo, hvals, hvals2, hv0, hv8]

/-- Witness for C9 at a concrete /proc/net/dev content: two header lines,
one `eth0` line (rx 100, tx 200) and one `lo` line whose counters are
excluded. -/
theorem read_net_dev_spec_witness :
    read_net_dev
        ["Inter-|   Receive", " face |bytes",
         "eth0: 100 2 3 4 5 6 7 8 200 9",
         "lo: 5 0 0 0 0 0 0 0 7 0"] =
      some (25 / 256, 25 / 128) := by
  have h := read_net_dev_spec.1 "Inter-|   Receive" " face |bytes"
    ["eth0: 100 2 3 4 5 6 7 8 200 9", "lo: 5 0 0 0 0 0 0 0 7 0"]
    [(100, 200), (0, 0)] (by decide)
  rw [h]
  norm_num

/-! ### C10 -/

/-- C10: `read_cpu_times` parses only fields 1 through 7 of the split line
(the 7 per-CPU tick counts after the `cpu` label); any trailing fields
(steal, guest, guest_nice — even non-numeric ones) are excluded from the
total, the total is the sum of exactly those 7 values, and the returned
idle value is the 4th of them. -/
theorem read_cpu_times_first_seven (line : String) (lbl : List Char)
    (ts extra : List (List Char)) (vs : List Int)
    (hsplit : pySplitWs line.toList = lbl :: (ts ++ extra))
    (hmap : ts.mapM pyInt = some vs) (hlen : vs.length = 7) :
    read_cpu_times line = some (vs.getD 3 0, vs.sum) := by
  have hts : ts.length = 7 := (mapM_some_length pyInt ts vs hmap).trans hlen
  unfold read_cpu_times read_cpu_times_fields
  rw [hsplit]
  rw [show ((lbl :: (ts ++ extra)).drop 1) = ts ++ extra from rfl]
  rw [List.take_append_of_le_length (by omega), List.take_of_length_le (by omega)]
  rw [hmap, Option.some_bind]
  rw [List.getElem?_eq_getElem (show 3 < vs.length by omega), Option.map_some']
  rw [List.getD_eq_getElem vs 0 (show 3 < vs.length by omega)]

/-- Witness for C10 at a concrete /proc/stat first line carrying two
trailing fields (one of them not even numeric) after the first seven. -/
theorem read_cpu_times_first_seven_witness :
    read_cpu_times "cpu 10 20 30 40 50 60 70 xx 88" = some (40, 280) := by
  have h := read_cpu_times_first_seven "cpu 10 20 30 40 50 60 70 xx 88"
    ("cpu").toList
    [("10").toList, ("20").toList, ("30").toList, ("40").toList,
      ("50").toList, ("60").toList, ("70").toList]
    [("xx").toList, ("88").toList]
    [10, 20, 30, 40, 50, 60, 70] (by decide) (by decide) (by decide)
  rw [h]
  decide

end Sysmon
